import Mathlib

/-!
Verification of the nap-map backend planning core (src/index.js, with the
legacy variant src/unnamed/part_000 embedded separately below).

The embedding is shallow: JS objects become structures with `Option` fields
where the source applies `?.` / `|| default` fallbacks, epoch-millisecond
timestamps become `Int`, and the floating-point score arithmetic is modelled
over `ℚ` with the exact literal weights from the source.
-/

namespace NapMap

/-- One maneuver step of a route leg: `{ maneuver?, duration?.value }`.
The maneuver tag is the raw string (as a character list, so that the
source's substring test `String.prototype.includes` can be modelled). -/
structure Step where
  maneuver : Option (List Char)
  duration : Option Nat
  deriving DecidableEq, Repr

/-- A route leg: `{ steps?, duration_in_traffic?.value, duration?.value }`. -/
structure Leg where
  steps : List Step
  duration_in_traffic : Option Nat
  duration : Option Nat
  deriving DecidableEq, Repr

/-- A route as returned by the directions oracle: `{ legs }`. -/
structure Route where
  legs : List Leg
  deriving DecidableEq, Repr

/-- The oracle's response body: `{ status, routes }`. -/
structure DirectionsData where
  status : String
  routes : List Route
  deriving DecidableEq, Repr

/-- The candidate record built by `getAlternatives`:
`{ leg, durationSec }` (the `route` field is not consumed afterwards). -/
structure Candidate where
  leg : Option Leg
  durationSec : Nat
  deriving DecidableEq, Repr

/-- `listStartsWith s pat`: does `s` start with `pat`? -/
def listStartsWith : List Char → List Char → Bool
  | _, [] => true
  | [], _ :: _ => false
  | c :: cs, p :: ps => c = p && listStartsWith cs ps

/-- `strIncludes s pat`: JS `s.includes(pat)` — `pat` occurs contiguously in `s`. -/
def strIncludes : List Char → List Char → Bool
  | [], pat => pat.isEmpty
  | c :: cs, pat => listStartsWith (c :: cs) pat || strIncludes cs pat

def patTurnLeft : List Char := "turn-left".data
def patTurnRight : List Char := "turn-right".data
def patUturn : List Char := "uturn".data
def patRamp : List Char := "ramp".data
def patMerge : List Char := "merge".data
def patKeepLeft : List Char := "keep-left".data
def patKeepRight : List Char := "keep-right".data

/-- The highway-hint test of `scoreRoute`:
`m.includes('ramp') || m.includes('merge') || m.includes('keep-left') || m.includes('keep-right')`. -/
def isHighwayHint (m : List Char) : Bool :=
  strIncludes m patRamp || strIncludes m patMerge ||
    strIncludes m patKeepLeft || strIncludes m patKeepRight

-- ----- scoring weights (src/index.js lines 75-82) -----

def W_LONGEST_STRETCH : ℚ := 3
def W_USED_DURATION : ℚ := 1
def W_HIGHWAY_HINTS : ℚ := 8/10
def P_LEFT_TURN : ℚ := 1
def P_RIGHT_TURN : ℚ := 16/10
def P_UTURN : ℚ := 3
def P_STOP : ℚ := 5/10
def EARLY_ARRIVAL_PEN : ℚ := 2/1000

/-- The mutable locals of `scoreRoute`'s step loop. -/
structure ScanState where
  lefts : Nat
  rights : Nat
  uturns : Nat
  stops : Nat
  highwayHints : Nat
  longestStretch : Nat
  currentStretch : Nat
  deriving DecidableEq, Repr

def initScan : ScanState := ⟨0, 0, 0, 0, 0, 0, 0⟩

/-- One iteration of the `for (const s of steps)` loop in `scoreRoute`
(src/index.js lines 110-134).  `m = s.maneuver || ''`, `d = s.duration?.value || 0`. -/
def stepScan (st : ScanState) (s : Step) : ScanState :=
  let m := s.maneuver.getD []
  let d := s.duration.getD 0
  { lefts := st.lefts + (if strIncludes m patTurnLeft then 1 else 0)
    rights := st.rights + (if strIncludes m patTurnRight then 1 else 0)
    uturns := st.uturns + (if strIncludes m patUturn then 1 else 0)
    highwayHints := st.highwayHints + (if isHighwayHint m then 1 else 0)
    stops := st.stops + (if d < 25 then 1 else 0)
    longestStretch :=
      if 120 ≤ d then max st.longestStretch (st.currentStretch + d)
      else st.longestStretch
    currentStretch := if 120 ≤ d then st.currentStretch + d else 0 }

/-- The feature breakdown returned by `scoreRoute` as `metrics`. -/
structure Metrics where
  totalDuration : Nat
  longestStretch : Nat
  leftTurns : Nat
  rightTurns : Nat
  uturns : Nat
  stops : Nat
  highwayHints : Nat
  deriving DecidableEq, Repr

structure ScoreResult where
  score : ℚ
  metrics : Metrics
  deriving DecidableEq, Repr

/-- The steps list consumed by `scoreRoute`: `candidate.leg?.steps || []`. -/
def stepsOf (c : Candidate) : List Step := (c.leg.map Leg.steps).getD []

/-- `scoreRoute` (src/index.js lines 106-160). -/
def scoreRoute (c : Candidate) : ScoreResult :=
  let st := (stepsOf c).foldl stepScan initScan
  let usedMinutes : ℚ := (c.durationSec : ℚ) / 60
  let longestMins : ℚ := (st.longestStretch : ℚ) / 60
  { score :=
      W_LONGEST_STRETCH * longestMins +
      W_USED_DURATION * usedMinutes +
      W_HIGHWAY_HINTS * (st.highwayHints : ℚ) -
      P_LEFT_TURN * (st.lefts : ℚ) -
      P_RIGHT_TURN * (st.rights : ℚ) -
      P_UTURN * (st.uturns : ℚ) -
      P_STOP * (st.stops : ℚ)
    metrics :=
      { totalDuration := c.durationSec
        longestStretch := st.longestStretch
        leftTurns := st.lefts
        rightTurns := st.rights
        uturns := st.uturns
        stops := st.stops
        highwayHints := st.highwayHints } }

/-- Durations of the steps fed to the scorer, with the source's `|| 0` fallback. -/
def stepDurations (c : Candidate) : List Nat :=
  (stepsOf c).map (fun s => s.duration.getD 0)

-- ----- spec-side description of the longest continuous stretch (for C2) -----

/-- Modelled from the spec: the maximal runs of consecutive durations that are
each at least 120 seconds.  `napRuns ds` splits `ds` at every element below
120, so its entries are exactly the maximal runs (possibly-empty chunks
between consecutive separators contribute sum 0 and are harmless). -/
def napRuns : List Nat → List (List Nat)
  | [] => [[]]
  | d :: ds =>
    match napRuns ds with
    | [] => []
    | r :: rs => if 120 ≤ d then (d :: r) :: rs else [] :: r :: rs

def maxSum (ls : List (List Nat)) : Nat :=
  ls.foldr (fun l m => max l.sum m) 0

/-- Modelled from the spec: "the maximum sum of any maximal run of consecutive
steps each with duration ≥ 120s". -/
def stretchSpec (ds : List Nat) : Nat := maxSum (napRuns ds)

/-- The pure stretch-tracking component of `stepScan`, as a fold over the
durations only: state is `(currentStretch, longestStretch)`. -/
def stretchStep (p : Nat × Nat) (d : Nat) : Nat × Nat :=
  if 120 ≤ d then (p.1 + d, max p.2 (p.1 + d)) else (0, p.2)

/-- Right-to-left description of what the stretch fold computes beyond an
already-accumulated current run `cur`. -/
def runBest : Nat → List Nat → Nat
  | _, [] => 0
  | cur, d :: ds => if 120 ≤ d then max (cur + d) (runBest (cur + d) ds) else runBest 0 ds

-- ----- the /api/plan departure-time search (src/index.js lines 50-230) -----

/-- `MIN_LEAD = 2 * 60 * 1000` ms. -/
def MIN_LEAD : Int := 120000

/-- `LOOKBACK = 6 * 60 * 60 * 1000` ms. -/
def LOOKBACK : Int := 21600000

/-- `getAlternatives` (src/index.js lines 84-104), with the HTTP transport
abstracted away: the oracle's JSON body is the input.  Throwing is modelled
as `Except.error`. -/
def getAlternatives (data : DirectionsData) : Except String (List Candidate) :=
  if data.status ≠ "OK" ∨ data.routes = [] then
    Except.error ("Directions error: " ++ data.status)
  else
    Except.ok (data.routes.map fun r =>
      { leg := r.legs.head?
        durationSec :=
          match r.legs.head? with
          | none => 0
          | some l => l.duration_in_traffic.getD (l.duration.getD 0) })

/-- The retained best proposal (`bestChoice`); ISO strings are kept as the
underlying epoch-millisecond integers. -/
structure BestChoice where
  depart : Int
  arrive : Int
  durationSec : Nat
  score : ScoreResult
  effectiveScore : ℚ
  deriving DecidableEq, Repr

/-- One pass of the `for (const cand of alts)` body (src/index.js lines 172-191):
skip late arrivals, otherwise score, apply the earliness penalty and keep the
higher effective score. -/
def considerAlt (mid target : Int) (best : Option BestChoice) (cand : Candidate) :
    Option BestChoice :=
  let arrive := mid + (cand.durationSec : Int) * 1000
  if target < arrive then best
  else
    let scored := scoreRoute cand
    let early : Int := target - arrive
    let eff : ℚ := scored.score - EARLY_ARRIVAL_PEN * (early : ℚ)
    let proposal : BestChoice := ⟨mid, arrive, cand.durationSec, scored, eff⟩
    match best with
    | none => some proposal
    | some b => if b.effectiveScore < proposal.effectiveScore then some proposal else some b

def evalAlts (mid target : Int) (best : Option BestChoice) (alts : List Candidate) :
    Option BestChoice :=
  alts.foldl (considerAlt mid target) best

/-- `alts.reduce((a, b) => (a.durationSec < b.durationSec ? a : b))`;
`none` models the TypeError JS throws on an empty array. -/
def fastestAlt : List Candidate → Option Candidate
  | [] => none
  | a :: rest => some (rest.foldl (fun x y => if x.durationSec < y.durationSec then x else y) a)

/-- The mutable search-loop state: the window bounds and the retained best. -/
structure LoopState where
  lo : Int
  hi : Int
  best : Option BestChoice
  deriving DecidableEq, Repr

/-- `mid = Math.floor((lo + hi) / 2); if (mid < now + MIN_LEAD) mid = now + MIN_LEAD`. -/
def probeTime (now : Int) (st : LoopState) : Int :=
  let mid0 := (st.lo + st.hi).fdiv 2
  if mid0 < now + MIN_LEAD then now + MIN_LEAD else mid0

inductive StepOutcome
  | failed (e : String)
  | done (st : LoopState)
  | next (st : LoopState)
  deriving DecidableEq, Repr

/-- One iteration of the probe loop (src/index.js lines 165-202): probe the
midpoint, evaluate every alternative, narrow the window around the fastest
alternative's arrival, and stop when the window span drops below 120000 ms. -/
def searchStep (oracle : Int → DirectionsData) (now target : Int) (st : LoopState) :
    StepOutcome :=
  let mid := probeTime now st
  match getAlternatives (oracle mid) with
  | Except.error e => StepOutcome.failed e
  | Except.ok alts =>
    let best := evalAlts mid target st.best alts
    match fastestAlt alts with
    | none => StepOutcome.failed "Reduce of empty array with no initial value"
    | some f =>
      let fastestArrive := mid + (f.durationSec : Int) * 1000
      let st2 : LoopState :=
        if target < fastestArrive then ⟨st.lo, mid - 120000, best⟩
        else ⟨mid + 120000, st.hi, best⟩
      if st2.hi - st2.lo < 120000 then StepOutcome.done st2
      else StepOutcome.next st2

/-- The `for (let i = 0; i < 12; i++)` loop with explicit fuel, instrumented
with the list of departure timestamps actually sent to the oracle. -/
def searchLoop (oracle : Int → DirectionsData) (now target : Int) :
    Nat → LoopState → List Int × Except String LoopState
  | 0, st => ([], Except.ok st)
  | fuel + 1, st =>
    match searchStep oracle now target st with
    | StepOutcome.failed e => ([probeTime now st], Except.error e)
    | StepOutcome.done st2 => ([probeTime now st], Except.ok st2)
    | StepOutcome.next st2 =>
      let r := searchLoop oracle now target fuel st2
      (probeTime now st :: r.1, r.2)

/-- `lo = Math.max(now + MIN_LEAD, targetTime - LOOKBACK)` (line 71). -/
def initLo (now target : Int) : Int := max (now + MIN_LEAD) (target - LOOKBACK)

/-- `hi = Math.max(lo + 30 * 60 * 1000, targetTime - 5 * 60 * 1000)` (line 72). -/
def initHi (now target : Int) : Int :=
  max (initLo now target + 1800000) (target - 300000)

/-- The three distinguishable outcomes of POST /api/plan: the 500 handler,
the 502 "No route meets arrival constraint" response, and the 200 response
carrying the winner. -/
inductive PlanResult
  | serverError (e : String)
  | infeasible
  | success (b : BestChoice)
  deriving DecidableEq, Repr

/-- The planning core of POST /api/plan: the probe log together with the
response outcome. -/
def apiPlan (oracle : Int → DirectionsData) (now target : Int) :
    List Int × PlanResult :=
  let r := searchLoop oracle now target 12 ⟨initLo now target, initHi now target, none⟩
  match r.2 with
  | Except.error e => (r.1, PlanResult.serverError e)
  | Except.ok st =>
    match st.best with
    | none => (r.1, PlanResult.infeasible)
    | some b => (r.1, PlanResult.success b)

/-- Observer on the plan outcome: `true` exactly when the response is a
success whose retained candidate arrives strictly after the target. -/
def lateResult (target : Int) : PlanResult → Bool
  | PlanResult.success b => decide (target < b.arrive)
  | _ => false

-- ----- legacy variant: src/unnamed/part_000 -----

namespace P0

/-- `getBestRoute` (part_000 lines 74-97): same status/empty check, then picks
the minimum-duration route among those that have a first leg; returns `none`
when no route has a leg (the caller then dereferences null). -/
def getBestRoute (data : DirectionsData) : Except String (Option Candidate) :=
  if data.status ≠ "OK" ∨ data.routes = [] then
    Except.error ("Directions error: " ++ data.status)
  else
    Except.ok (data.routes.foldl
      (fun pick r =>
        match r.legs.head? with
        | none => pick
        | some leg =>
          let dur := leg.duration_in_traffic.getD (leg.duration.getD 0)
          match pick with
          | none => some ⟨some leg, dur⟩
          | some p => if dur < p.durationSec then some ⟨some leg, dur⟩ else some p)
      none)

/-- The part_000 scorer's mutable locals (no u-turn or highway counters). -/
structure Scan0 where
  lefts : Nat
  rights : Nat
  stops : Nat
  longestStretch : Nat
  currentStretch : Nat
  deriving DecidableEq, Repr

/-- `scoreRoute` (part_000 lines 99-124). -/
def scoreRoute (best : Candidate) : ℚ × Scan0 :=
  let st := ((best.leg.map Leg.steps).getD []).foldl
    (fun st s =>
      let m := s.maneuver.getD []
      let d := s.duration.getD 0
      { lefts := st.lefts + (if strIncludes m patTurnLeft then 1 else 0)
        rights := st.rights + (if strIncludes m patTurnRight then 1 else 0)
        stops := st.stops + (if d < 25 then 1 else 0)
        longestStretch :=
          if 120 ≤ d then max st.longestStretch (st.currentStretch + d)
          else st.longestStretch
        currentStretch := if 120 ≤ d then st.currentStretch + d else 0 })
    ⟨0, 0, 0, 0, 0⟩
  ((st.longestStretch : ℚ) / 60 - ((st.lefts : ℚ) + (st.rights : ℚ)) - (st.stops : ℚ) * (5/10),
    st)

/-- The retained candidate of the part_000 loop. -/
structure Cand0 where
  depart : Int
  arrive : Int
  durationSec : Nat
  score : ℚ × Scan0
  deriving DecidableEq, Repr

structure State0 where
  lo : Int
  hi : Int
  candidate : Option Cand0
  deriving DecidableEq, Repr

/-- The part_000 probe loop (lines 126-153): the candidate minimizing
`|arrival - target|` is retained, with no feasibility filter. -/
def loop0 (oracle : Int → DirectionsData) (now target : Int) :
    Nat → State0 → Except String State0
  | 0, st => Except.ok st
  | fuel + 1, st =>
    let mid0 := (st.lo + st.hi).fdiv 2
    let mid := if mid0 < now + MIN_LEAD then now + MIN_LEAD else mid0
    match getBestRoute (oracle mid) with
    | Except.error e => Except.error e
    | Except.ok none => Except.error "TypeError: cannot read durationSec of null"
    | Except.ok (some best) =>
      let arrive := mid + (best.durationSec : Int) * 1000
      let delta := |arrive - target|
      let c : Cand0 := ⟨mid, arrive, best.durationSec, scoreRoute best⟩
      let cand : Option Cand0 :=
        match st.candidate with
        | none => some c
        | some old => if delta < |old.arrive - target| then some c else some old
      let st2 : State0 :=
        if target < arrive then ⟨st.lo, mid - 120000, cand⟩
        else ⟨mid + 120000, st.hi, cand⟩
      if delta ≤ 60000 ∨ st2.hi - st2.lo < 120000 then Except.ok st2
      else loop0 oracle now target fuel st2

inductive Result0
  | serverError (e : String)
  | infeasible
  | success (c : Cand0)
  deriving DecidableEq, Repr

/-- The part_000 planning core of POST /api/plan. -/
def apiPlan (oracle : Int → DirectionsData) (now target : Int) : Result0 :=
  match loop0 oracle now target 12 ⟨initLo now target, initHi now target, none⟩ with
  | Except.error e => Result0.serverError e
  | Except.ok st =>
    match st.candidate with
    | none => Result0.infeasible
    | some c => Result0.success c

/-- Does the part_000 plan succeed with an arrival strictly after the target? -/
def lateSuccess (target : Int) : Result0 → Bool
  | Result0.success c => target < c.arrive
  | _ => false

end P0

-- ----- concrete oracles and inputs used in witnesses and counterexamples -----

/-- An oracle that always answers OK with a single 10-hour route. -/
def dLate : DirectionsData := ⟨"OK", [⟨[⟨[], none, some 36000⟩]⟩]⟩

def oLate : Int → DirectionsData := fun _ => dLate

/-- An oracle that always answers OK with a single 10-minute route. -/
def dFast : DirectionsData := ⟨"OK", [⟨[⟨[], none, some 600⟩]⟩]⟩

def oFast : Int → DirectionsData := fun _ => dFast

/-- An oracle that always reports a non-success status with no routes. -/
def dBad : DirectionsData := ⟨"ZERO_RESULTS", []⟩

def oBad : Int → DirectionsData := fun _ => dBad

-- ------------------------------------------------------------------
-- Theorems.  First: characterizations of the scorer's single pass.
-- ------------------------------------------------------------------

theorem foldl_stepScan_lefts (steps : List Step) (st : ScanState) :
    (steps.foldl stepScan st).lefts
      = st.lefts + steps.countP (fun s => strIncludes (s.maneuver.getD []) patTurnLeft) := by
  induction steps generalizing st with
  | nil => simp
  | cons s rest ih =>
    rw [List.foldl_cons, ih, List.countP_cons]
    simp only [stepScan]
    cases h : strIncludes (s.maneuver.getD []) patTurnLeft <;> simp [h] <;> omega

theorem foldl_stepScan_rights (steps : List Step) (st : ScanState) :
    (steps.foldl stepScan st).rights
      = st.rights + steps.countP (fun s => strIncludes (s.maneuver.getD []) patTurnRight) := by
  induction steps generalizing st with
  | nil => simp
  | cons s rest ih =>
    rw [List.foldl_cons, ih, List.countP_cons]
    simp only [stepScan]
    cases h : strIncludes (s.maneuver.getD []) patTurnRight <;> simp [h] <;> omega

theorem foldl_stepScan_uturns (steps : List Step) (st : ScanState) :
    (steps.foldl stepScan st).uturns
      = st.uturns + steps.countP (fun s => strIncludes (s.maneuver.getD []) patUturn) := by
  induction steps generalizing st with
  | nil => simp
  | cons s rest ih =>
    rw [List.foldl_cons, ih, List.countP_cons]
    simp only [stepScan]
    cases h : strIncludes (s.maneuver.getD []) patUturn <;> simp [h] <;> omega

theorem foldl_stepScan_highway (steps : List Step) (st : ScanState) :
    (steps.foldl stepScan st).highwayHints
      = st.highwayHints + steps.countP (fun s => isHighwayHint (s.maneuver.getD [])) := by
  induction steps generalizing st with
  | nil => simp
  | cons s rest ih =>
    rw [List.foldl_cons, ih, List.countP_cons]
    simp only [stepScan]
    cases h : isHighwayHint (s.maneuver.getD []) <;> simp [h] <;> omega

theorem foldl_stepScan_stops (steps : List Step) (st : ScanState) :
    (steps.foldl stepScan st).stops
      = st.stops + steps.countP (fun s => s.duration.getD 0 < 25) := by
  induction steps generalizing st with
  | nil => simp
  | cons s rest ih =>
    rw [List.foldl_cons, ih, List.countP_cons]
    simp only [stepScan]
    by_cases h : s.duration.getD 0 < 25 <;> simp [h] <;> omega

theorem foldl_stepScan_stretch (steps : List Step) (st : ScanState) :
    ((steps.foldl stepScan st).currentStretch, (steps.foldl stepScan st).longestStretch)
      = (steps.map (fun s => s.duration.getD 0)).foldl stretchStep
          (st.currentStretch, st.longestStretch) := by
  induction steps generalizing st with
  | nil => rfl
  | cons s rest ih =>
    rw [List.foldl_cons, List.map_cons, List.foldl_cons, ih (stepScan st s)]
    have hinit : ((stepScan st s).currentStretch, (stepScan st s).longestStretch)
        = stretchStep (st.currentStretch, st.longestStretch) (s.duration.getD 0) := by
      simp only [stepScan, stretchStep]
      by_cases h : 120 ≤ s.duration.getD 0 <;> simp [h]
    rw [hinit]

theorem foldl_stretchStep_runBest (ds : List Nat) :
    ∀ cur longest, (ds.foldl stretchStep (cur, longest)).2 = max longest (runBest cur ds) := by
  induction ds with
  | nil => intro cur longest; simp [runBest]
  | cons d ds ih =>
    intro cur longest
    rw [List.foldl_cons]
    by_cases h : 120 ≤ d
    · simp only [stretchStep, runBest, if_pos h]
      rw [ih]
      omega
    · simp only [stretchStep, runBest, if_neg h]
      rw [ih]

theorem napRuns_cons (d : Nat) (ds : List Nat) (r : List Nat) (rs : List (List Nat))
    (h : napRuns ds = r :: rs) :
    napRuns (d :: ds) = if 120 ≤ d then (d :: r) :: rs else [] :: r :: rs := by
  simp only [napRuns, h]

theorem napRuns_ne_nil (ds : List Nat) : napRuns ds ≠ [] := by
  induction ds with
  | nil => simp [napRuns]
  | cons d ds ih =>
    cases h : napRuns ds with
    | nil => exact absurd h ih
    | cons r rs =>
      rw [napRuns_cons d ds r rs h]
      split <;> simp

theorem maxSum_cons (l : List Nat) (ls : List (List Nat)) :
    maxSum (l :: ls) = max l.sum (maxSum ls) := rfl

theorem runBest_napRuns (ds : List Nat) : ∀ cur r rs, napRuns ds = r :: rs →
    runBest cur ds = max (if r = [] then 0 else cur + r.sum) (maxSum rs) := by
  induction ds with
  | nil =>
    intro cur r rs h
    simp only [napRuns] at h
    injection h with h1 h2
    subst h1; subst h2
    simp [runBest, maxSum]
  | cons d ds ih =>
    intro cur r rs h
    cases h' : napRuns ds with
    | nil => exact absurd h' (napRuns_ne_nil ds)
    | cons r' rs' =>
      rw [napRuns_cons d ds r' rs' h'] at h
      by_cases hd : 120 ≤ d
      · rw [if_pos hd] at h
        injection h with h1 h2
        subst h1; subst h2
        simp only [runBest, if_pos hd]
        rw [ih (cur + d) r' rs' h']
        by_cases hr : r' = []
        · subst hr
          simp
        · rw [if_neg hr, if_neg (by simp : (d :: r') ≠ []), List.sum_cons]
          omega
      · rw [if_neg hd] at h
        injection h with h1 h2
        subst h1; subst h2
        simp only [runBest, if_neg hd]
        rw [ih 0 r' rs' h', maxSum_cons]
        simp only [if_true]
        by_cases hr : r' = []
        · subst hr
          simp
        · rw [if_neg hr]
          omega

theorem scoreRoute_stretch_fold (c : Candidate) :
    (scoreRoute c).metrics.longestStretch
      = ((stepDurations c).foldl stretchStep (0, 0)).2 := by
  have h2 := foldl_stepScan_stretch (stepsOf c) initScan
  have h3 := congrArg Prod.snd h2
  simpa [stepDurations, initScan, scoreRoute] using h3

theorem scoreRoute_longestStretch (c : Candidate) :
    (scoreRoute c).metrics.longestStretch = stretchSpec (stepDurations c) := by
  rw [scoreRoute_stretch_fold, foldl_stretchStep_runBest]
  cases h : napRuns (stepDurations c) with
  | nil => exact absurd h (napRuns_ne_nil _)
  | cons r rs =>
    rw [runBest_napRuns _ 0 r rs h]
    unfold stretchSpec
    rw [h, maxSum_cons]
    by_cases hr : r = []
    · subst hr; simp
    · rw [if_neg hr]; omega

theorem runBest_le (ds : List Nat) : ∀ cur, runBest cur ds ≤ cur + ds.sum := by
  induction ds with
  | nil => intro cur; simp [runBest]
  | cons d ds ih =>
    intro cur
    simp only [runBest, List.sum_cons]
    by_cases h : 120 ≤ d
    · rw [if_pos h]
      have := ih (cur + d)
      omega
    · rw [if_neg h]
      have := ih 0
      omega

theorem scoreRoute_stretch_le_sum (c : Candidate) :
    (scoreRoute c).metrics.longestStretch ≤ (stepDurations c).sum := by
  rw [scoreRoute_stretch_fold, foldl_stretchStep_runBest]
  have := runBest_le (stepDurations c) 0
  omega

-- ------------------------------------------------------------------
-- Claim C2
-- ------------------------------------------------------------------

/-- Claim C2 counterexample: the scorer's `longestStretch` is computed from the
step list while `totalDuration` is the leg's independently reported duration
value, so a response whose leg reports duration 0 but contains a 200-second
step yields `longestStretch = 200 > 0 = totalDuration`, refuting
"longestContinuousStretchSeconds ≤ totalDurationSeconds" as stated. -/
theorem stretch_exceeds_totalDuration_cex :
    getAlternatives ⟨"OK", [⟨[⟨[⟨none, some 200⟩], none, some 0⟩]⟩]⟩
      = Except.ok [⟨some ⟨[⟨none, some 200⟩], none, some 0⟩, 0⟩] ∧
    (scoreRoute ⟨some ⟨[⟨none, some 200⟩], none, some 0⟩, 0⟩).metrics.longestStretch = 200 ∧
    ¬ ((scoreRoute ⟨some ⟨[⟨none, some 200⟩], none, some 0⟩, 0⟩).metrics.longestStretch
        ≤ (scoreRoute ⟨some ⟨[⟨none, some 200⟩], none, some 0⟩, 0⟩).metrics.totalDuration) :=
  ⟨rfl, rfl, by decide⟩

/-- Claim C2 (amended): `longestContinuousStretchSeconds` equals the maximum
sum over maximal runs of consecutive steps of duration ≥ 120 s (a step below
120 s resets the accumulator), and is bounded by the *sum of the step
durations*; it is bounded by `totalDurationSeconds` whenever the reported
total duration is at least that sum (the code does not force this, since the
two inputs are independent fields of the oracle response). -/
theorem longest_stretch_spec (c : Candidate) :
    (scoreRoute c).metrics.longestStretch = stretchSpec (stepDurations c) ∧
    (scoreRoute c).metrics.longestStretch ≤ (stepDurations c).sum ∧
    ((stepDurations c).sum ≤ c.durationSec →
      (scoreRoute c).metrics.longestStretch ≤ (scoreRoute c).metrics.totalDuration) := by
  refine ⟨scoreRoute_longestStretch c, scoreRoute_stretch_le_sum c, fun h => ?_⟩
  have hle := scoreRoute_stretch_le_sum c
  have ht : (scoreRoute c).metrics.totalDuration = c.durationSec := rfl
  omega

/-- Witness for C2: on a well-formed alternative (one 150-second step, total
duration 200 s) the hypothesis holds and the stretch is within the total. -/
theorem longest_stretch_spec_witness :
    (scoreRoute ⟨some ⟨[⟨none, some 150⟩], none, some 200⟩, 200⟩).metrics.longestStretch
      ≤ (scoreRoute ⟨some ⟨[⟨none, some 150⟩], none, some 200⟩, 200⟩).metrics.totalDuration :=
  (longest_stretch_spec ⟨some ⟨[⟨none, some 150⟩], none, some 200⟩, 200⟩).2.2 (by decide)

-- ------------------------------------------------------------------
-- Claim C5
-- ------------------------------------------------------------------

/-- Claim C5: the raw score is exactly
`W_stretch·(longestStretch/60) + W_duration·(totalDuration/60)
 + W_highway·highwayHints − P_left·lefts − P_right·rights − P_uturn·uturns
 − P_stop·stops`, where the stop counter counts exactly the steps of duration
under 25 seconds and the highway counter counts exactly the steps whose
maneuver matches ramp/merge/keep-left/keep-right. -/
theorem score_formula (c : Candidate) :
    (scoreRoute c).score
      = W_LONGEST_STRETCH * (((scoreRoute c).metrics.longestStretch : ℚ) / 60)
        + W_USED_DURATION * (((scoreRoute c).metrics.totalDuration : ℚ) / 60)
        + W_HIGHWAY_HINTS * ((scoreRoute c).metrics.highwayHints : ℚ)
        - P_LEFT_TURN * ((scoreRoute c).metrics.leftTurns : ℚ)
        - P_RIGHT_TURN * ((scoreRoute c).metrics.rightTurns : ℚ)
        - P_UTURN * ((scoreRoute c).metrics.uturns : ℚ)
        - P_STOP * ((scoreRoute c).metrics.stops : ℚ) ∧
    (scoreRoute c).metrics.stops
      = (stepsOf c).countP (fun s => s.duration.getD 0 < 25) ∧
    (scoreRoute c).metrics.highwayHints
      = (stepsOf c).countP (fun s => isHighwayHint (s.maneuver.getD [])) := by
  refine ⟨rfl, ?_, ?_⟩
  · have h := foldl_stepScan_stops (stepsOf c) initScan
    simpa [initScan] using h
  · have h := foldl_stepScan_highway (stepsOf c) initScan
    simpa [initScan] using h

-- ------------------------------------------------------------------
-- Claim C6
-- ------------------------------------------------------------------

/-- Claim C6 counterexample: maneuver matching is by substring, and
`'uturn-left'` contains `'turn-left'`, so a single `uturn-left` step
increments the u-turn counter AND the left-turn counter, refuting "increments
only the u-turn counter and not also the left-turn counter". -/
theorem uturn_left_double_counts :
    (scoreRoute ⟨some ⟨[⟨some "uturn-left".data, some 300⟩], none, some 300⟩, 300⟩).metrics.uturns
      = 1 ∧
    (scoreRoute ⟨some ⟨[⟨some "uturn-left".data, some 300⟩], none, some 300⟩, 300⟩).metrics.leftTurns
      = 1 ∧
    ¬ ((scoreRoute ⟨some ⟨[⟨some "uturn-left".data, some 300⟩], none, some 300⟩, 300⟩).metrics.leftTurns
        = 0) := by
  refine ⟨by decide, by decide, by decide⟩

/-- Claim C6 (amended): each turn counter is incremented exactly when the
step's maneuver string contains the corresponding substring (`turn-left`,
`turn-right`, `uturn`); since `uturn-left` contains both `uturn` and
`turn-left` (and `uturn-right` both `uturn` and `turn-right`), a u-turn step
increments the u-turn counter and additionally the matching turn counter. -/
theorem turn_counters_substring (c : Candidate) :
    (scoreRoute c).metrics.leftTurns
      = (stepsOf c).countP (fun s => strIncludes (s.maneuver.getD []) patTurnLeft) ∧
    (scoreRoute c).metrics.rightTurns
      = (stepsOf c).countP (fun s => strIncludes (s.maneuver.getD []) patTurnRight) ∧
    (scoreRoute c).metrics.uturns
      = (stepsOf c).countP (fun s => strIncludes (s.maneuver.getD []) patUturn) ∧
    strIncludes "uturn-left".data patUturn = true ∧
    strIncludes "uturn-left".data patTurnLeft = true ∧
    strIncludes "uturn-right".data patUturn = true ∧
    strIncludes "uturn-right".data patTurnRight = true := by
  refine ⟨?_, ?_, ?_, by decide, by decide, by decide, by decide⟩
  · have h := foldl_stepScan_lefts (stepsOf c) initScan
    simpa [initScan] using h
  · have h := foldl_stepScan_rights (stepsOf c) initScan
    simpa [initScan] using h
  · have h := foldl_stepScan_uturns (stepsOf c) initScan
    simpa [initScan] using h

-- ------------------------------------------------------------------
-- Claim C10
-- ------------------------------------------------------------------

/-- Claim C10: the scorer is total on malformed alternatives — a missing
duration is treated as 0 (hence counted as a stop and resetting the stretch
accumulator), a missing maneuver matches no counter, and a missing leg (or
empty step list) gives all-zero counters and zero longest stretch. -/
theorem scorer_total_on_malformed :
    (∀ d : Nat,
        (scoreRoute ⟨none, d⟩).metrics.leftTurns = 0 ∧
        (scoreRoute ⟨none, d⟩).metrics.rightTurns = 0 ∧
        (scoreRoute ⟨none, d⟩).metrics.uturns = 0 ∧
        (scoreRoute ⟨none, d⟩).metrics.stops = 0 ∧
        (scoreRoute ⟨none, d⟩).metrics.highwayHints = 0 ∧
        (scoreRoute ⟨none, d⟩).metrics.longestStretch = 0 ∧
        scoreRoute ⟨none, d⟩ = scoreRoute ⟨some ⟨[], none, none⟩, d⟩) ∧
    (∀ (st : ScanState) (m : Option (List Char)),
        stepScan st ⟨m, none⟩ = stepScan st ⟨m, some 0⟩) ∧
    (∀ (st : ScanState) (m : Option (List Char)),
        (stepScan st ⟨m, none⟩).stops = st.stops + 1 ∧
        (stepScan st ⟨m, none⟩).currentStretch = 0) ∧
    (∀ (st : ScanState) (dopt : Option Nat),
        (stepScan st ⟨none, dopt⟩).lefts = st.lefts ∧
        (stepScan st ⟨none, dopt⟩).rights = st.rights ∧
        (stepScan st ⟨none, dopt⟩).uturns = st.uturns ∧
        (stepScan st ⟨none, dopt⟩).highwayHints = st.highwayHints) :=
  ⟨fun _ => ⟨rfl, rfl, rfl, rfl, rfl, rfl, rfl⟩,
   fun _ _ => rfl,
   fun _ _ => ⟨rfl, rfl⟩,
   fun _ _ => ⟨rfl, rfl, rfl, rfl⟩⟩

-- ------------------------------------------------------------------
-- Claim C3
-- ------------------------------------------------------------------

/-- Claim C3: the code computes
`effectiveScore = score − EARLY_ARRIVAL_PEN · early` where `early` is in
MILLISECONDS (`targetTime − arriveEpoch`, both epoch ms), although its own
comments say "seconds early" / "penalty per second early".  At a probe
departing 120000 ms with a 600 s route and deadline 780000 ms, the candidate
is 60 seconds early: the code yields `10 − 0.002·60000 = −110`, while the
claimed per-second formula yields `10 − 0.002·60 = 9.88`. -/
theorem early_penalty_milliseconds :
    (considerAlt 120000 780000 none ⟨some ⟨[], none, some 600⟩, 600⟩).map
        BestChoice.effectiveScore = some (-110) ∧
    (scoreRoute ⟨some ⟨[], none, some 600⟩, 600⟩).score = 10 ∧
    (scoreRoute ⟨some ⟨[], none, some 600⟩, 600⟩).score - EARLY_ARRIVAL_PEN * 60
      = 247 / 25 ∧
    ((-110 : ℚ) ≠ 247 / 25) := by
  have hscore : (scoreRoute ⟨some ⟨[], none, some 600⟩, 600⟩).score = 10 := by
    simp [scoreRoute, stepsOf, initScan, W_LONGEST_STRETCH, W_USED_DURATION, W_HIGHWAY_HINTS,
      P_LEFT_TURN, P_RIGHT_TURN, P_UTURN, P_STOP]
    norm_num
  refine ⟨?_, hscore, ?_, by norm_num⟩
  · rw [considerAlt]
    norm_num [hscore, EARLY_ARRIVAL_PEN]
  · rw [hscore]
    norm_num [EARLY_ARRIVAL_PEN]

-- ------------------------------------------------------------------
-- Search-loop helper lemmas
-- ------------------------------------------------------------------

theorem getAlternatives_ok_ne_nil (d : DirectionsData) (alts : List Candidate)
    (h : getAlternatives d = Except.ok alts) : alts ≠ [] := by
  unfold getAlternatives at h
  split at h
  · cases h
  · rename_i hcond
    injection h with h1
    subst h1
    intro hmap
    have hr : d.routes = [] := by simpa using hmap
    exact hcond (Or.inr hr)

theorem fastestAlt_of_ne_nil (alts : List Candidate) (h : alts ≠ []) :
    ∃ f, fastestAlt alts = some f := by
  cases alts with
  | nil => exact absurd rfl h
  | cons a rest => exact ⟨_, rfl⟩

theorem probeTime_ge (now : Int) (st : LoopState) :
    now + MIN_LEAD ≤ probeTime now st := by
  unfold probeTime
  dsimp only
  split
  · omega
  · omega

theorem searchStep_failed_error (oracle : Int → DirectionsData) (now target : Int)
    (st : LoopState) (e : String)
    (h : searchStep oracle now target st = StepOutcome.failed e) :
    getAlternatives (oracle (probeTime now st)) = Except.error e := by
  simp only [searchStep] at h
  cases hga : getAlternatives (oracle (probeTime now st)) with
  | error e' =>
    simp only [hga] at h
    injection h with h1
    subst h1
    rfl
  | ok alts =>
    simp only [hga] at h
    cases hfa : fastestAlt alts with
    | none =>
      exfalso
      obtain ⟨f, hf⟩ := fastestAlt_of_ne_nil alts (getAlternatives_ok_ne_nil _ _ hga)
      rw [hf] at hfa
      cases hfa
    | some f =>
      simp only [hfa] at h
      split at h <;> split at h <;> cases h

theorem searchStep_best_eq (oracle : Int → DirectionsData) (now target : Int)
    (st st2 : LoopState)
    (h : searchStep oracle now target st = StepOutcome.done st2 ∨
         searchStep oracle now target st = StepOutcome.next st2) :
    ∃ alts, getAlternatives (oracle (probeTime now st)) = Except.ok alts ∧
      st2.best = evalAlts (probeTime now st) target st.best alts := by
  rcases h with h | h <;>
  · simp only [searchStep] at h
    cases hga : getAlternatives (oracle (probeTime now st)) with
    | error e =>
      simp only [hga] at h
      cases h
    | ok alts =>
      simp only [hga] at h
      cases hfa : fastestAlt alts with
      | none =>
        simp only [hfa] at h
        cases h
      | some f =>
        simp only [hfa] at h
        refine ⟨alts, rfl, ?_⟩
        split at h <;> split at h <;> cases h <;> rfl

theorem searchStep_done_span (oracle : Int → DirectionsData) (now target : Int)
    (st st2 : LoopState)
    (h : searchStep oracle now target st = StepOutcome.done st2) :
    st2.hi - st2.lo < 120000 := by
  simp only [searchStep] at h
  cases hga : getAlternatives (oracle (probeTime now st)) with
  | error e => simp only [hga] at h; cases h
  | ok alts =>
    simp only [hga] at h
    cases hfa : fastestAlt alts with
    | none => simp only [hfa] at h; cases h
    | some f =>
      simp only [hfa] at h
      split at h
      · split at h
        · rename_i hspan
          cases h
          exact hspan
        · cases h
      · split at h
        · rename_i hspan
          cases h
          exact hspan
        · cases h

theorem searchStep_next_span (oracle : Int → DirectionsData) (now target : Int)
    (st st2 : LoopState)
    (h : searchStep oracle now target st = StepOutcome.next st2) :
    120000 ≤ st2.hi - st2.lo := by
  simp only [searchStep] at h
  cases hga : getAlternatives (oracle (probeTime now st)) with
  | error e => simp only [hga] at h; cases h
  | ok alts =>
    simp only [hga] at h
    cases hfa : fastestAlt alts with
    | none => simp only [hfa] at h; cases h
    | some f =>
      simp only [hfa] at h
      split at h
      · split at h
        · cases h
        · rename_i hspan
          cases h
          omega
      · split at h
        · cases h
        · rename_i hspan
          cases h
          omega

theorem searchLoop_length (oracle : Int → DirectionsData) (now target : Int) :
    ∀ (fuel : Nat) (st : LoopState),
      (searchLoop oracle now target fuel st).1.length ≤ fuel := by
  intro fuel
  induction fuel with
  | zero => intro st; simp [searchLoop]
  | succ n ih =>
    intro st
    simp only [searchLoop]
    rcases hss : searchStep oracle now target st with e | st2 | st2 <;> simp only [hss]
    · simp
    · simp
    · simp only [List.length_cons]
      exact Nat.succ_le_succ (ih st2)

theorem searchLoop_probes_ge (oracle : Int → DirectionsData) (now target : Int) :
    ∀ (fuel : Nat) (st : LoopState) (p : Int),
      p ∈ (searchLoop oracle now target fuel st).1 → now + MIN_LEAD ≤ p := by
  intro fuel
  induction fuel with
  | zero => intro st p hp; simp [searchLoop] at hp
  | succ n ih =>
    intro st p hp
    simp only [searchLoop] at hp
    rcases hss : searchStep oracle now target st with e | st2 | st2 <;> simp only [hss] at hp
    · simp at hp
      subst hp
      exact probeTime_ge now st
    · simp at hp
      subst hp
      exact probeTime_ge now st
    · rcases List.mem_cons.mp hp with h1 | h2
      · subst h1
        exact probeTime_ge now st
      · exact ih st2 p h2

theorem apiPlan_fst (oracle : Int → DirectionsData) (now target : Int) :
    (apiPlan oracle now target).1
      = (searchLoop oracle now target 12 ⟨initLo now target, initHi now target, none⟩).1 := by
  unfold apiPlan
  dsimp only
  rcases h : (searchLoop oracle now target 12 ⟨initLo now target, initHi now target, none⟩).2
      with e | st
  · simp only [h]
  · simp only [h]
    rcases hb : st.best with _ | b <;> simp only [hb]

theorem considerAlt_arrive_le (mid target : Int) (b : Option BestChoice) (cand : Candidate)
    (hb : ∀ x, b = some x → x.arrive ≤ target) :
    ∀ x, considerAlt mid target b cand = some x → x.arrive ≤ target := by
  intro x hx
  unfold considerAlt at hx
  dsimp only at hx
  split at hx
  · exact hb x hx
  · rename_i hlate
    rcases b with _ | old
    · injection hx with h1
      subst h1
      dsimp only
      omega
    · dsimp only at hx
      split at hx
      · injection hx with h1
        subst h1
        dsimp only
        omega
      · injection hx with h1
        subst h1
        exact hb old rfl

theorem evalAlts_arrive_le (mid target : Int) (alts : List Candidate) :
    ∀ (b : Option BestChoice), (∀ x, b = some x → x.arrive ≤ target) →
      ∀ x, evalAlts mid target b alts = some x → x.arrive ≤ target := by
  induction alts with
  | nil => intro b hb x hx; exact hb x hx
  | cons c cs ih =>
    intro b hb
    exact ih (considerAlt mid target b c) (considerAlt_arrive_le mid target b c hb)

theorem searchLoop_arrive_le (oracle : Int → DirectionsData) (now target : Int) :
    ∀ (fuel : Nat) (st st' : LoopState),
      (∀ x, st.best = some x → x.arrive ≤ target) →
      (searchLoop oracle now target fuel st).2 = Except.ok st' →
      ∀ x, st'.best = some x → x.arrive ≤ target := by
  intro fuel
  induction fuel with
  | zero =>
    intro st st' hb h
    simp only [searchLoop] at h
    injection h with h1
    subst h1
    exact hb
  | succ n ih =>
    intro st st' hb h
    simp only [searchLoop] at h
    rcases hss : searchStep oracle now target st with e | st2 | st2 <;> simp only [hss] at h
    · cases h
    · injection h with h1
      obtain ⟨alts, hga, hbest⟩ := searchStep_best_eq oracle now target st st2 (Or.inl hss)
      subst h1
      intro x hx
      rw [hbest] at hx
      exact evalAlts_arrive_le _ _ _ _ hb x hx
    · obtain ⟨alts, hga, hbest⟩ := searchStep_best_eq oracle now target st st2 (Or.inr hss)
      refine ih st2 st' ?_ h
      intro x hx
      rw [hbest] at hx
      exact evalAlts_arrive_le _ _ _ _ hb x hx

theorem apiPlan_not_late (oracle : Int → DirectionsData) (now target : Int) :
    lateResult target (apiPlan oracle now target).2 = false := by
  unfold apiPlan
  dsimp only
  rcases h : (searchLoop oracle now target 12 ⟨initLo now target, initHi now target, none⟩).2
      with e | st
  · simp only [h]
    rfl
  · simp only [h]
    rcases hb : st.best with _ | b <;> simp only [hb]
    · rfl
    · have hle : b.arrive ≤ target :=
        searchLoop_arrive_le oracle now target 12 _ st
          (fun x hx => Option.noConfusion hx) h b hb
      simp only [lateResult, decide_eq_false_iff_not]
      omega

theorem considerAlt_late_skip (mid target : Int) (b : Option BestChoice) (cand : Candidate)
    (h : target < mid + (cand.durationSec : Int) * 1000) :
    considerAlt mid target b cand = b := by
  unfold considerAlt
  dsimp only
  rw [if_pos h]

theorem evalAlts_all_late (mid target : Int) (alts : List Candidate)
    (h : ∀ c ∈ alts, target < mid + (c.durationSec : Int) * 1000) :
    ∀ b, evalAlts mid target b alts = b := by
  induction alts with
  | nil => intro b; rfl
  | cons c cs ih =>
    intro b
    have h1 : considerAlt mid target b c = b :=
      considerAlt_late_skip _ _ _ _ (h c (List.mem_cons_self c cs))
    calc evalAlts mid target b (c :: cs)
        = evalAlts mid target (considerAlt mid target b c) cs := rfl
      _ = evalAlts mid target b cs := by rw [h1]
      _ = b := ih (fun c' hc => h c' (List.mem_cons_of_mem _ hc)) b

theorem searchLoop_stays_none (oracle : Int → DirectionsData) (now target : Int)
    (hl : ∀ t alts, now + MIN_LEAD ≤ t → getAlternatives (oracle t) = Except.ok alts →
        ∀ c ∈ alts, target < t + (c.durationSec : Int) * 1000) :
    ∀ (fuel : Nat) (st st' : LoopState), st.best = none →
      (searchLoop oracle now target fuel st).2 = Except.ok st' → st'.best = none := by
  intro fuel
  induction fuel with
  | zero =>
    intro st st' hb h
    simp only [searchLoop] at h
    injection h with h1
    subst h1
    exact hb
  | succ n ih =>
    intro st st' hb h
    simp only [searchLoop] at h
    rcases hss : searchStep oracle now target st with e | st2 | st2 <;> simp only [hss] at h
    · cases h
    · injection h with h1
      obtain ⟨alts, hga, hbest⟩ := searchStep_best_eq oracle now target st st2 (Or.inl hss)
      subst h1
      rw [hbest, hb]
      exact evalAlts_all_late _ _ _ (hl _ alts (probeTime_ge now st) hga) none
    · obtain ⟨alts, hga, hbest⟩ := searchStep_best_eq oracle now target st st2 (Or.inr hss)
      refine ih st2 st' ?_ h
      rw [hbest, hb]
      exact evalAlts_all_late _ _ _ (hl _ alts (probeTime_ge now st) hga) none

theorem searchLoop_some_ok (oracle : Int → DirectionsData) (now target : Int)
    (h : ∀ t, ∃ alts, getAlternatives (oracle t) = Except.ok alts) :
    ∀ (fuel : Nat) (st : LoopState),
      ∃ st', (searchLoop oracle now target fuel st).2 = Except.ok st' := by
  intro fuel
  induction fuel with
  | zero => intro st; exact ⟨st, rfl⟩
  | succ n ih =>
    intro st
    simp only [searchLoop]
    rcases hss : searchStep oracle now target st with e | st2 | st2 <;> simp only [hss]
    · exfalso
      have hfe := searchStep_failed_error oracle now target st e hss
      obtain ⟨alts, hga⟩ := h (probeTime now st)
      rw [hga] at hfe
      cases hfe
    · exact ⟨st2, rfl⟩
    · exact ih st2

theorem getAlternatives_error_iff (d : DirectionsData) :
    (∃ e, getAlternatives d = Except.error e) ↔ (d.status ≠ "OK" ∨ d.routes = []) := by
  unfold getAlternatives
  split
  · rename_i hc
    exact ⟨fun _ => hc, fun _ => ⟨_, rfl⟩⟩
  · rename_i hc
    constructor
    · rintro ⟨e, he⟩
      cases he
    · intro h
      exact absurd h hc

theorem searchLoop_error_split (oracle : Int → DirectionsData) (now target : Int) :
    ∀ (fuel : Nat) (st : LoopState) (ps : List Int) (e : String),
      searchLoop oracle now target fuel st = (ps, Except.error e) →
      ∃ pre p, ps = pre ++ [p] ∧ getAlternatives (oracle p) = Except.error e ∧
        ∀ q ∈ pre, ∃ alts, getAlternatives (oracle q) = Except.ok alts := by
  intro fuel
  induction fuel with
  | zero =>
    intro st ps e h
    simp only [searchLoop] at h
    injection h with h1 h2
    cases h2
  | succ n ih =>
    intro st ps e h
    simp only [searchLoop] at h
    rcases hss : searchStep oracle now target st with e' | st2 | st2 <;> simp only [hss] at h
    · injection h with h1 h2
      injection h2 with h3
      subst h3
      subst h1
      exact ⟨[], probeTime now st, rfl,
        searchStep_failed_error oracle now target st _ hss, by simp⟩
    · injection h with h1 h2
      cases h2
    · injection h with h1 h2
      obtain ⟨alts, hga, -⟩ := searchStep_best_eq oracle now target st st2 (Or.inr hss)
      have heq : searchLoop oracle now target n st2
          = ((searchLoop oracle now target n st2).1, Except.error e) := by
        rw [← h2]
      obtain ⟨pre, p, hps, hperr, hpre⟩ := ih st2 _ e heq
      subst h1
      refine ⟨probeTime now st :: pre, p, by rw [hps, List.cons_append], hperr, ?_⟩
      intro q hq
      rcases List.mem_cons.mp hq with h1' | h2'
      · subst h1'
        exact ⟨alts, hga⟩
      · exact hpre q h2'

theorem apiPlan_serverError (oracle : Int → DirectionsData) (now target : Int)
    (ps : List Int) (e : String)
    (h : apiPlan oracle now target = (ps, PlanResult.serverError e)) :
    searchLoop oracle now target 12 ⟨initLo now target, initHi now target, none⟩
      = (ps, Except.error e) := by
  unfold apiPlan at h
  dsimp only at h
  rcases hr : (searchLoop oracle now target 12 ⟨initLo now target, initHi now target, none⟩).2
      with e' | st
  · simp only [hr] at h
    injection h with h1 h2
    injection h2 with h3
    subst h3
    subst h1
    rw [← hr]
  · simp only [hr] at h
    rcases hb : st.best with _ | b <;> simp only [hb] at h
    · injection h with h1 h2
      cases h2
    · injection h with h1 h2
      cases h2

-- ------------------------------------------------------------------
-- Claim C4
-- ------------------------------------------------------------------

/-- Claim C4: whenever a bisection iteration hands a state to the next probe
(outcome `next`), the adjusted bounds satisfy `lo < hi`; in every other
outcome (`done`, `failed`, or fuel exhaustion) the loop terminates, so no
further probe is issued with crossed or collapsed bounds. -/
theorem window_invariant (oracle : Int → DirectionsData) (now target : Int)
    (st st2 : LoopState)
    (h : searchStep oracle now target st = StepOutcome.next st2) :
    st2.lo < st2.hi := by
  have := searchStep_next_span oracle now target st st2 h
  omega

/-- Witness for C4 at a concrete oracle and state. -/
theorem window_invariant_witness :
    (⟨0, 4880000, none⟩ : LoopState).lo < (⟨0, 4880000, none⟩ : LoopState).hi :=
  window_invariant oLate 0 7200000 ⟨0, 10000000, none⟩ ⟨0, 4880000, none⟩ (by decide)

-- ------------------------------------------------------------------
-- Claim C9
-- ------------------------------------------------------------------

/-- Claim C9: the plan issues at most 12 oracle queries (one per probe
iteration, as logged), the loop stops (`done`) exactly when the adjusted span
drops below the 120000 ms convergence threshold, and it continues (`next`)
only while the span is at least that threshold. -/
theorem probe_budget (oracle : Int → DirectionsData) (now target : Int) :
    (apiPlan oracle now target).1.length ≤ 12 ∧
    (∀ st st2 : LoopState, searchStep oracle now target st = StepOutcome.done st2 →
        st2.hi - st2.lo < 120000) ∧
    (∀ st st2 : LoopState, searchStep oracle now target st = StepOutcome.next st2 →
        120000 ≤ st2.hi - st2.lo) := by
  refine ⟨?_, ?_, ?_⟩
  · rw [apiPlan_fst]
    exact searchLoop_length oracle now target 12 _
  · intro st st2 h
    exact searchStep_done_span oracle now target st st2 h
  · intro st st2 h
    exact searchStep_next_span oracle now target st st2 h

/-- Witness for C9: the probe budget at a failing oracle, a concrete converged
iteration, and a concrete continuing iteration. -/
theorem probe_budget_witness :
    (apiPlan oBad 0 7200000).1.length ≤ 12 ∧
    ((⟨0, 80000, none⟩ : LoopState).hi - (⟨0, 80000, none⟩ : LoopState).lo < 120000) ∧
    (120000 ≤ (⟨0, 4880000, none⟩ : LoopState).hi - (⟨0, 4880000, none⟩ : LoopState).lo) :=
  ⟨(probe_budget oBad 0 7200000).1,
   (probe_budget oLate 0 7200000).2.1 ⟨0, 400000, none⟩ ⟨0, 80000, none⟩ (by decide),
   (probe_budget oLate 0 7200000).2.2 ⟨0, 10000000, none⟩ ⟨0, 4880000, none⟩ (by decide)⟩

-- ------------------------------------------------------------------
-- Claim C8
-- ------------------------------------------------------------------

/-- Claim C8: the initial window is
`lo = max(now + MIN_LEAD, target − LOOKBACK)`,
`hi = max(lo + 30 min, target − 5 min)`, hence `lo < hi`; and every departure
timestamp sent to the oracle is at least `now + MIN_LEAD` (the midpoint is
clamped), so the oracle is never queried with a past or too-soon departure. -/
theorem probe_lower_bound (oracle : Int → DirectionsData) (now target : Int) :
    initLo now target = max (now + MIN_LEAD) (target - LOOKBACK) ∧
    initHi now target = max (initLo now target + 1800000) (target - 300000) ∧
    initLo now target < initHi now target ∧
    ∀ p ∈ (apiPlan oracle now target).1, now + MIN_LEAD ≤ p := by
  refine ⟨rfl, rfl, ?_, ?_⟩
  · unfold initHi
    omega
  · intro p hp
    rw [apiPlan_fst] at hp
    exact searchLoop_probes_ge oracle now target 12 _ p hp

/-- Witness for C8: the only probe issued against the failing oracle respects
the lead-time bound. -/
theorem probe_lower_bound_witness : (0 : Int) + MIN_LEAD ≤ 3510000 :=
  (probe_lower_bound oBad 0 7200000).2.2.2 3510000 (by decide)

-- ------------------------------------------------------------------
-- Claim C1
-- ------------------------------------------------------------------

/-- Claim C1 counterexample: the legacy search loop in src/unnamed/part_000
has no feasibility filter — it retains the candidate minimizing
`|arrival − deadline|` — so with an oracle whose only route takes 10 hours and
a deadline 2 hours away it answers success with arrival 36219375 ms, far past
the 7200000 ms deadline, instead of an infeasibility signal. -/
theorem part000_late_arrival_cex :
    P0.lateSuccess 7200000 (P0.apiPlan oLate 0 7200000) = true := by decide

/-- Claim C1 (amended, holds for src/index.js): the main search never returns
a success whose candidate arrives after the deadline (late alternatives are
skipped before scoring), and when every probed alternative would arrive late
while the oracle keeps answering, it returns the distinct infeasibility
signal.  The legacy variant in src/unnamed/part_000 violates the claim. -/
theorem feasibility_main_search (oracle : Int → DirectionsData) (now target : Int) :
    lateResult target (apiPlan oracle now target).2 = false ∧
    ((∀ t alts, now + MIN_LEAD ≤ t → getAlternatives (oracle t) = Except.ok alts →
          ∀ c ∈ alts, target < t + (c.durationSec : Int) * 1000) →
      (∀ t, ∃ alts, getAlternatives (oracle t) = Except.ok alts) →
      (apiPlan oracle now target).2 = PlanResult.infeasible) := by
  refine ⟨apiPlan_not_late oracle now target, fun hl hok => ?_⟩
  unfold apiPlan
  dsimp only
  obtain ⟨st', h⟩ :=
    searchLoop_some_ok oracle now target hok 12 ⟨initLo now target, initHi now target, none⟩
  simp only [h]
  have hnone := searchLoop_stays_none oracle now target hl 12 _ st' rfl h
  simp only [hnone]

/-- Witness for C1: a 10-hour-route oracle against a 2-hour deadline makes
every probed alternative late, and the plan reports infeasibility. -/
theorem feasibility_main_search_witness :
    (apiPlan oLate 0 7200000).2 = PlanResult.infeasible := by
  refine (feasibility_main_search oLate 0 7200000).2 ?_ ?_
  · intro t alts ht h
    have hd : getAlternatives (oLate t)
        = Except.ok [⟨some ⟨[], none, some 36000⟩, 36000⟩] := rfl
    rw [hd] at h
    injection h with h1
    subst h1
    intro c hc
    simp only [List.mem_singleton] at hc
    subst hc
    have hm : MIN_LEAD = 120000 := rfl
    show (7200000 : Int) < t + ((36000 : Nat) : Int) * 1000
    omega
  · intro t
    exact ⟨_, rfl⟩

-- ------------------------------------------------------------------
-- Claim C7
-- ------------------------------------------------------------------

/-- Claim C7: `getAlternatives` fails exactly on a non-success status or an
empty route list, and any such failure aborts the whole plan: a server-error
response comes from the last probe issued, every earlier probe succeeded, and
nothing is probed after the failure (the failing probe ends the log). -/
theorem oracle_failure_aborts (oracle : Int → DirectionsData) (now target : Int) :
    (∀ d : DirectionsData,
        (∃ e, getAlternatives d = Except.error e) ↔ (d.status ≠ "OK" ∨ d.routes = [])) ∧
    (∀ (ps : List Int) (e : String),
      apiPlan oracle now target = (ps, PlanResult.serverError e) →
      ∃ pre p, ps = pre ++ [p] ∧ getAlternatives (oracle p) = Except.error e ∧
        ∀ q ∈ pre, ∃ alts, getAlternatives (oracle q) = Except.ok alts) := by
  refine ⟨getAlternatives_error_iff, fun ps e h => ?_⟩
  exact searchLoop_error_split oracle now target 12 _ ps e
    (apiPlan_serverError oracle now target ps e h)

/-- Witness for C7: the always-failing oracle aborts the plan at its first and
only probe. -/
theorem oracle_failure_aborts_witness :
    ∃ pre p, ([3510000] : List Int) = pre ++ [p] ∧
      getAlternatives (oBad p) = Except.error "Directions error: ZERO_RESULTS" ∧
      ∀ q ∈ pre, ∃ alts, getAlternatives (oBad q) = Except.ok alts :=
  (oracle_failure_aborts oBad 0 7200000).2 [3510000] "Directions error: ZERO_RESULTS"
    (by decide)

end NapMap
